import Mathlib

/-!
Shallow embedding of the BoldDesk attachment-cleanup client (src/cleanup.js).

JavaScript values decoded from JSON bodies are modelled by `JSVal`
(numbers are modelled as integers; the identifiers and counters this
program handles are integral, and no claim depends on fractional or
non-finite numbers).  `Option JSVal` models a possibly-`undefined`
JavaScript value: `none` is `undefined`, `some JSVal.null` is `null`.

The network is modelled as a function from requests to responses; every
function that performs requests also returns the list of requests it
issued, in order, so that temporal claims ("never issues a delete",
"exactly 3 requests") are statements about that list.  The two `while`
loops of `run` are given explicit fuel; `StepOut.fuelOut` marks fuel
exhaustion of the model and corresponds to no behaviour of the program.

The clock (`isoDaysAgo`, `new Date()`) is environmental input: the
already-encoded cutoff string is a configuration field.
-/

inductive JSVal where
  | null
  | bool (b : Bool)
  | num (n : Int)
  | str (s : String)
  | arr (xs : List JSVal)
  | obj (fields : List (String × JSVal))

/-- Property lookup on an object's field list: first binding wins. -/
def lookupField : List (String × JSVal) → String → Option JSVal
  | [], _ => none
  | (k, v) :: fs, key => if k = key then some v else lookupField fs key

/-- JavaScript property access `v.key` (and `v?.key`): `undefined` (`none`)
on `null`, on non-objects, and on objects lacking the key. -/
def getField : JSVal → String → Option JSVal
  | JSVal.obj fs, key => lookupField fs key
  | _, _ => none

/-- JavaScript truthiness of a defined value. -/
def jsTruthy : JSVal → Bool
  | JSVal.null => false
  | JSVal.bool b => b
  | JSVal.num n => !(n == 0)
  | JSVal.str s => !(s == "")
  | JSVal.arr _ => true
  | JSVal.obj _ => true

/-- Truthiness of a possibly-`undefined` value (`undefined` is falsy). -/
def optTruthy : Option JSVal → Bool
  | none => false
  | some v => jsTruthy v

/-- The nullish-coalescing operator `a ?? b`: `b` when `a` is `null` or
`undefined`, otherwise `a`. -/
def coalesce : Option JSVal → Option JSVal → Option JSVal
  | some JSVal.null, b => b
  | none, b => b
  | some v, _ => some v

/-- Source `normalizeArray(resp)`: `const arr = resp?.data ?? resp?.result ?? resp;
return Array.isArray(arr) ? arr : [];`. -/
def normalizeArray (resp : JSVal) : List JSVal :=
  match coalesce (getField resp "data") (coalesce (getField resp "result") (some resp)) with
  | some (JSVal.arr xs) => xs
  | _ => []

mutual

/-- Rendering of an array element inside `Array.prototype.toString`
(`null` renders as the empty string there). -/
def jsElemStr : JSVal → String
  | JSVal.null => ""
  | JSVal.bool true => "true"
  | JSVal.bool false => "false"
  | JSVal.num n => toString n
  | JSVal.str s => s
  | JSVal.arr xs => jsArrStr xs
  | JSVal.obj _ => "[object Object]"
termination_by structural v => v

/-- Array elements joined by ",", as `Array.prototype.toString` does. -/
def jsArrStr : List JSVal → String
  | [] => ""
  | [x] => jsElemStr x
  | x :: y :: xs => jsElemStr x ++ "," ++ jsArrStr (y :: xs)
termination_by structural l => l

end

/-- JavaScript string conversion as performed by template literals. -/
def jsToStr : JSVal → String
  | JSVal.null => "null"
  | JSVal.bool true => "true"
  | JSVal.bool false => "false"
  | JSVal.num n => toString n
  | JSVal.str s => s
  | JSVal.arr xs => jsArrStr xs
  | JSVal.obj _ => "[object Object]"

/-- Escaping of one character inside a JSON string literal. -/
def jsonEscChar (c : Char) : String :=
  if c = '"' then "\\\""
  else if c = '\\' then "\\\\"
  else if c = '\n' then "\\n"
  else if c = '\r' then "\\r"
  else if c = '\t' then "\\t"
  else String.singleton c

def jsonEscList : List Char → String
  | [] => ""
  | c :: cs => jsonEscChar c ++ jsonEscList cs

def jsonQuote (s : String) : String :=
  "\"" ++ jsonEscList s.data ++ "\""

mutual

/-- `JSON.stringify` on decoded JSON values (no `undefined` can occur in a
decoded body, so the elision rules for `undefined` never apply). -/
def jsonStr : JSVal → String
  | JSVal.null => "null"
  | JSVal.bool true => "true"
  | JSVal.bool false => "false"
  | JSVal.num n => toString n
  | JSVal.str s => jsonQuote s
  | JSVal.arr xs => "[" ++ jsonStrList xs ++ "]"
  | JSVal.obj fs => "\x7b" ++ jsonStrFields fs ++ "\x7d"
termination_by structural v => v

def jsonStrList : List JSVal → String
  | [] => ""
  | [x] => jsonStr x
  | x :: y :: xs => jsonStr x ++ "," ++ jsonStrList (y :: xs)
termination_by structural l => l

def jsonStrFields : List (String × JSVal) → String
  | [] => ""
  | [(k, v)] => jsonQuote k ++ ":" ++ jsonStr v
  | (k, v) :: g :: fs => jsonQuote k ++ ":" ++ jsonStr v ++ "," ++ jsonStrFields (g :: fs)
termination_by structural l => l

end

/-- One HTTP response as seen by `bdFetch` before decoding.  `jsonBody` is
the outcome of `res.json()` (`none` models a parse failure, which the
source catches to `null`); `textBody` is the outcome of `res.text()` (a
read failure is already caught to `""`). -/
structure HttpResponse where
  status : Nat
  statusText : String
  contentType : String
  jsonBody : Option JSVal
  textBody : String

def listPrefixEqb : List Char → List Char → Bool
  | [], _ => true
  | _ :: _, [] => false
  | a :: as, b :: bs => a == b && listPrefixEqb as bs

def listHasSub : List Char → List Char → Bool
  | pat, [] => pat.isEmpty
  | pat, c :: rest => listPrefixEqb pat (c :: rest) || listHasSub pat rest

/-- JavaScript `String.prototype.includes`. -/
def strIncludes (s pat : String) : Bool :=
  listHasSub pat.data s.data

/-- `res.ok` of the fetch API: status in the inclusive range 200..299. -/
def resOk (status : Nat) : Bool :=
  decide (200 ≤ status) && decide (status ≤ 299)

/-- Body decoding in `bdFetch`: JSON-parse when the response declares a JSON
content type (parse failure caught to `null`), otherwise the raw text. -/
def decodePayload (r : HttpResponse) : JSVal :=
  if strIncludes r.contentType "application/json" then
    match r.jsonBody with
    | some v => v
    | none => JSVal.null
  else JSVal.str r.textBody

/-- The data carried by the error `bdFetch` throws on a non-success status.
The thrown message is `HttpError.message` below; it is built from exactly
these three fields. -/
structure HttpError where
  status : Nat
  statusText : String
  body : String
deriving DecidableEq

def HttpError.message (e : HttpError) : String :=
  "HTTP " ++ toString e.status ++ " " ++ e.statusText ++ " - " ++ e.body

/-- `typeof payload === "string" ? payload : JSON.stringify(payload)`. -/
def stringifyPayload : JSVal → String
  | JSVal.str s => s
  | v => jsonStr v

/-- Source `bdFetch` applied to the single response the one `fetch` call
produced: decode the payload, succeed on `res.ok`, otherwise throw. -/
def bdFetch (res : HttpResponse) : Except HttpError JSVal :=
  let payload := decodePayload res
  if resOk res.status then Except.ok payload
  else Except.error (HttpError.mk res.status res.statusText (stringifyPayload payload))

/-- One HTTP request: method, path (relative to BASE) and accept header. -/
structure Req where
  method : String
  path : String
  accept : String
deriving DecidableEq

/-- The network: a deterministic response for every request. -/
def Net : Type := Req → HttpResponse

/-- `bdFetch` as the caller sees it: the result together with the requests
issued.  One `bdFetch` call performs exactly one `fetch` — no retries. -/
def bdFetchReq (net : Net) (r : Req) : Except HttpError JSVal × List Req :=
  (bdFetch (net r), [r])

/-- Request built by `listClosedTicketsOlderThan` (the cutoff is already
URI-encoded, see module comment). -/
def listTicketsReq (cutoffEncoded : String) (page perPage : Nat) : Req :=
  Req.mk "GET"
    ("/tickets?status=Closed&closedOnTo=" ++ cutoffEncoded ++ "&page=" ++ toString page
      ++ "&perPage=" ++ toString perPage)
    "application/json"

/-- Request built by `listTicketAttachments`. -/
def listAttachmentsReq (ticketId : JSVal) (page perPage : Nat) : Req :=
  Req.mk "GET"
    ("/tickets/" ++ jsToStr ticketId ++ "/attachments?Page=" ++ toString page
      ++ "&PerPage=" ++ toString perPage ++ "&OrderBy=createdOn%20desc")
    "application/json"

/-- Request built by `deleteActivityAttachment`:
`DELETE /activities/(activityId)/attachments/(attachmentId)` with
`accept: text/plain`. -/
def deleteAttachmentReq (activityId attachmentId : JSVal) : Req :=
  Req.mk "DELETE"
    ("/activities/" ++ jsToStr activityId ++ "/attachments/" ++ jsToStr attachmentId)
    "text/plain"

/-- Source `deleteActivityAttachment(activityId, attachmentId)`: a single
`bdFetch` against the one fixed route. -/
def deleteActivityAttachment (net : Net) (activityId attachmentId : JSVal) :
    Except HttpError JSVal × List Req :=
  bdFetchReq net (deleteAttachmentReq activityId attachmentId)

/-- Source `getActivityIdFromAttachment(a)`:
`a.activityId ?? a.updateId ?? a.activityID ?? a.updateID ?? null`. -/
def getActivityIdFromAttachment (a : JSVal) : JSVal :=
  match coalesce (getField a "activityId") (coalesce (getField a "updateId")
      (coalesce (getField a "activityID") (coalesce (getField a "updateID")
        (some JSVal.null)))) with
  | some v => v
  | none => JSVal.null

/-- `t.id ?? t.ticketId` of the ticket loop. -/
def ticketIdOf (t : JSVal) : Option JSVal :=
  coalesce (getField t "id") (getField t "ticketId")

/-- `a.id ?? a.attachmentId` of the attachment loop. -/
def attIdOf (a : JSVal) : Option JSVal :=
  coalesce (getField a "id") (getField a "attachmentId")

/-- `a.name ?? a.fileName ?? "(no name)"`. -/
def nameOf (a : JSVal) : JSVal :=
  match coalesce (getField a "name") (coalesce (getField a "fileName")
      (some (JSVal.str "(no name)"))) with
  | some v => v
  | none => JSVal.str "(no name)"

/-- The configuration the orchestrator consumes (already parsed/validated
by the excluded startup collaborator). -/
structure Config where
  dryRun : Bool
  days : Int
  maxDeletes : Int
  cutoffEncoded : String
deriving DecidableEq

/-- One `console.log` line of `run`, with the interpolated values already
rendered to strings exactly as the template literals render them. -/
inductive LogEvent where
  | startLine (days : Int) (dryRun : Bool) (maxDeletes : Int)
  | noMoreTickets
  | skipMissingActivity (ticketId attachmentId name : String)
  | dryRunWouldDelete (attachmentId name ticketId activityId : String)
  | deletedLine (attachmentId name ticketId activityId : String)
  | reachedMax (maxDeletes : Int)
  | doneSummary (count : Nat)
deriving DecidableEq

/-- Run-scoped mutable state of `run`: the `deletedCount` counter plus the
observable request trace and log. -/
structure RunSt where
  count : Nat
  reqs : List Req
  logs : List LogEvent
deriving DecidableEq

/-- Outcome of a fragment of `run`: fall through to the next statement,
early `return` (cap reached), a thrown error, or model fuel exhaustion. -/
inductive StepOut where
  | next (st : RunSt)
  | halt (st : RunSt)
  | err (e : HttpError) (st : RunSt)
  | fuelOut (st : RunSt)
deriving DecidableEq

def StepOut.state : StepOut → RunSt
  | StepOut.next st => st
  | StepOut.halt st => st
  | StepOut.err _ st => st
  | StepOut.fuelOut st => st

def RunSt.log (st : RunSt) (e : LogEvent) : RunSt :=
  { st with logs := st.logs ++ [e] }

def RunSt.addReq (st : RunSt) (r : Req) : RunSt :=
  { st with reqs := st.reqs ++ [r] }

def RunSt.incr (st : RunSt) : RunSt :=
  { st with count := st.count + 1 }

/-- The tail of the per-attachment body: `deletedCount += 1;` then the cap
check `if (deletedCount >= MAX_DELETES) ... return;`. -/
def afterCount (maxDeletes : Int) (st : RunSt) : StepOut :=
  let st1 := st.incr
  if (st1.count : Int) ≥ maxDeletes then
    StepOut.halt ((st1.log (LogEvent.reachedMax maxDeletes)).log (LogEvent.doneSummary st1.count))
  else StepOut.next st1

/-- The body of `for (const a of attachments)` in `run`. -/
def processAttachment (cfg : Config) (net : Net) (ticketId : JSVal) (a : JSVal)
    (st : RunSt) : StepOut :=
  let name := nameOf a
  let activityId := getActivityIdFromAttachment a
  match attIdOf a with
  | none => StepOut.next st
  | some attachmentId =>
    if jsTruthy attachmentId = false then StepOut.next st
    else if jsTruthy activityId = false then
      StepOut.next (st.log (LogEvent.skipMissingActivity (jsToStr ticketId)
        (jsToStr attachmentId) (jsToStr name)))
    else if cfg.dryRun then
      afterCount cfg.maxDeletes (st.log (LogEvent.dryRunWouldDelete (jsToStr attachmentId)
        (jsToStr name) (jsToStr ticketId) (jsToStr activityId)))
    else
      let req := deleteAttachmentReq activityId attachmentId
      let st1 := st.addReq req
      match bdFetch (net req) with
      | Except.error e => StepOut.err e st1
      | Except.ok _ =>
        afterCount cfg.maxDeletes (st1.log (LogEvent.deletedLine (jsToStr attachmentId)
          (jsToStr name) (jsToStr ticketId) (jsToStr activityId)))

/-- The `for (const a of attachments)` loop. -/
def processAttachments (cfg : Config) (net : Net) (ticketId : JSVal) :
    List JSVal → RunSt → StepOut
  | [], st => StepOut.next st
  | a :: rest, st =>
    match processAttachment cfg net ticketId a st with
    | StepOut.next st1 => processAttachments cfg net ticketId rest st1
    | out => out

/-- The inner `while (true)` of `run`: the attachment pagination walk for
one ticket, starting at the given page, with explicit fuel. -/
def attachmentLoop (cfg : Config) (net : Net) (ticketId : JSVal) :
    Nat → Nat → RunSt → StepOut
  | _, 0, st => StepOut.fuelOut st
  | page, fuel + 1, st =>
    let req := listAttachmentsReq ticketId page 50
    let st1 := st.addReq req
    match bdFetch (net req) with
    | Except.error e => StepOut.err e st1
    | Except.ok payload =>
      let attachments := normalizeArray payload
      if attachments.length = 0 then StepOut.next st1
      else
        match processAttachments cfg net ticketId attachments st1 with
        | StepOut.next st2 =>
          if attachments.length < 50 then StepOut.next st2
          else attachmentLoop cfg net ticketId (page + 1) fuel st2
        | out => out

/-- The body of `for (const t of tickets)` in `run`. -/
def processTicket (cfg : Config) (net : Net) (fuel : Nat) (t : JSVal)
    (st : RunSt) : StepOut :=
  match ticketIdOf t with
  | none => StepOut.next st
  | some v => if jsTruthy v then attachmentLoop cfg net v 1 fuel st else StepOut.next st

/-- The `for (const t of tickets)` loop. -/
def processTickets (cfg : Config) (net : Net) (fuel : Nat) :
    List JSVal → RunSt → StepOut
  | [], st => StepOut.next st
  | t :: rest, st =>
    match processTicket cfg net fuel t st with
    | StepOut.next st1 => processTickets cfg net fuel rest st1
    | out => out

/-- The outer `while (true)` of `run`: the ticket pagination walk, starting
at the given page, with explicit fuel (also handed to the inner loops). -/
def ticketLoop (cfg : Config) (net : Net) : Nat → Nat → RunSt → StepOut
  | _, 0, st => StepOut.fuelOut st
  | page, fuel + 1, st =>
    let req := listTicketsReq cfg.cutoffEncoded page 100
    let st1 := st.addReq req
    match bdFetch (net req) with
    | Except.error e => StepOut.err e st1
    | Except.ok payload =>
      let tickets := normalizeArray payload
      if tickets.length = 0 then StepOut.next (st1.log LogEvent.noMoreTickets)
      else
        match processTickets cfg net fuel tickets st1 with
        | StepOut.next st2 =>
          if tickets.length < 100 then StepOut.next st2
          else ticketLoop cfg net (page + 1) fuel st2
        | out => out

/-- Source `run()`: start log, the two-level walk, final summary on normal
completion (the cap path already logged its own summary before returning;
a thrown error propagates to the top-level handler). -/
def run (cfg : Config) (net : Net) (fuel : Nat) : StepOut :=
  let st0 := RunSt.mk 0 [] [LogEvent.startLine cfg.days cfg.dryRun cfg.maxDeletes]
  match ticketLoop cfg net 1 fuel st0 with
  | StepOut.next st => StepOut.next (st.log (LogEvent.doneSummary st.count))
  | out => out
/-- The normalizer as the specification words it, for comparison with the
source `normalizeArray`: "if the body has a `data` field, use it; else if it
has a `result` field, use it; else use the body itself; if the resolved
value is not an array, return an empty sequence". -/
def normalizeArraySpecWorded (resp : JSVal) : List JSVal :=
  let resolved : JSVal :=
    match getField resp "data" with
    | some v => v
    | none =>
      match getField resp "result" with
      | some v => v
      | none => resp
  match resolved with
  | JSVal.arr xs => xs
  | _ => []

/-- The amended resolution rule, matching the nullish coalescing the source
actually performs: a `data` field whose value is `null` is skipped over
(falling through to `result` and then to the body itself), and likewise for
`result`. -/
def normalizeArraySpecAmended (resp : JSVal) : List JSVal :=
  let resolved : JSVal :=
    match getField resp "data" with
    | some JSVal.null | none =>
      (match getField resp "result" with
       | some JSVal.null | none => resp
       | some w => w)
    | some v => v
  match resolved with
  | JSVal.arr xs => xs
  | _ => []

/-- No request in the list is a DELETE. -/
def noDeleteReqs (l : List Req) : Prop := ∀ r ∈ l, r.method ≠ "DELETE"

/-- Invariant tying every outcome of a run fragment to the cap: in-flight
states stay strictly below the cap, and a halted state sits exactly at the
cap with the two summary lines last in its log. -/
def capOK (m : Int) : StepOut → Prop
  | StepOut.halt st => (st.count : Int) = m ∧
      ∃ pre, st.logs = pre ++ [LogEvent.reachedMax m, LogEvent.doneSummary st.count]
  | StepOut.next st => (st.count : Int) < m
  | StepOut.err _ st => (st.count : Int) < m
  | StepOut.fuelOut st => (st.count : Int) < m

/-- A network whose responses carry no useful payload (used where the
network is irrelevant to the statement). -/
def nullNet : Net := fun _ => HttpResponse.mk 200 "OK" "" none ""

/-- Network for the C1 witness: one closed ticket with one eligible
attachment. -/
def c1net : Net := fun r =>
  if r = listTicketsReq "C1" 1 100 then
    HttpResponse.mk 200 "OK" "application/json"
      (some (JSVal.arr [JSVal.obj [("id", JSVal.num 9)]])) ""
  else
    HttpResponse.mk 200 "OK" "application/json"
      (some (JSVal.obj [("data", JSVal.arr [JSVal.obj [("id", JSVal.num 4),
        ("activityId", JSVal.num 77), ("name", JSVal.str "f.pdf")]])])) ""

/-- Network for the C2 counterexample: one closed ticket whose attachment
listing holds one eligible attachment. -/
def c2net : Net := fun r =>
  if r = listTicketsReq "C2" 1 100 then
    HttpResponse.mk 200 "OK" "application/json"
      (some (JSVal.arr [JSVal.obj [("id", JSVal.num 9)]])) ""
  else
    HttpResponse.mk 200 "OK" "application/json"
      (some (JSVal.arr [JSVal.obj [("id", JSVal.num 4),
        ("activityId", JSVal.num 77), ("name", JSVal.str "f.pdf")]])) ""

/-- C2 counterexample configuration: MAX_DELETES = 0, dry-run. -/
def c2cfg : Config := Config.mk true 14 0 "C2"

/-- Network for the C2 witness: one ticket with two eligible attachments. -/
def c2wnet : Net := fun r =>
  if r = listTicketsReq "C2W" 1 100 then
    HttpResponse.mk 200 "OK" "application/json"
      (some (JSVal.arr [JSVal.obj [("id", JSVal.num 9)]])) ""
  else
    HttpResponse.mk 200 "OK" "application/json"
      (some (JSVal.arr [JSVal.obj [("id", JSVal.num 4), ("activityId", JSVal.num 77)],
        JSVal.obj [("id", JSVal.num 5), ("activityId", JSVal.num 78)]])) ""

/-- C2 witness configuration: MAX_DELETES = 1, dry-run. -/
def c2wcfg : Config := Config.mk true 14 1 "C2W"

/-- Network for the C3 counterexample: the one route the code uses answers
404 while any other request would succeed. -/
def c3net : Net := fun r =>
  if r = deleteAttachmentReq (JSVal.num 9) (JSVal.num 5) then
    HttpResponse.mk 404 "Not Found" "text/plain" none "Route not found"
  else
    HttpResponse.mk 200 "OK" "text/plain" none "ok"

/-- Network for the C6 witness: every request fails with a structured 503
body. -/
def c6net : Net := fun _ =>
  HttpResponse.mk 503 "Service Unavailable" "application/json"
    (some (JSVal.obj [("message", JSVal.str "down")])) ""

def c6req : Req := Req.mk "GET" "/tickets?status=Closed" "application/json"

/-- A record with no identifier fields, as served in the C4 witness pages. -/
def c4blank : JSVal := JSVal.obj []

/-- C4 witness scenario A: ticket pages of sizes 100, 100, 37. -/
def c4pagesA : Nat → List JSVal := fun p =>
  if p ≤ 2 then List.replicate 100 c4blank else List.replicate 37 c4blank

def c4respA : Nat → JSVal := fun p => JSVal.arr (c4pagesA p)

def c4netA : Net := fun r =>
  if r = listTicketsReq "C4" 1 100 then
    HttpResponse.mk 200 "OK" "application/json" (some (c4respA 1)) ""
  else if r = listTicketsReq "C4" 2 100 then
    HttpResponse.mk 200 "OK" "application/json" (some (c4respA 2)) ""
  else if r = listTicketsReq "C4" 3 100 then
    HttpResponse.mk 200 "OK" "application/json" (some (c4respA 3)) ""
  else
    HttpResponse.mk 200 "OK" "application/json"
      (some (JSVal.arr [JSVal.obj [("x", JSVal.num 1)]])) ""

def c4cfg : Config := Config.mk true 14 200 "C4"

/-- C4 witness scenario B: ticket pages of sizes 100, 100, 100, 0. -/
def c4pagesB : Nat → List JSVal := fun p =>
  if p ≤ 3 then List.replicate 100 c4blank else []

def c4respB : Nat → JSVal := fun p => JSVal.arr (c4pagesB p)

def c4netB : Net := fun r =>
  if r = listTicketsReq "C4" 4 100 then
    HttpResponse.mk 200 "OK" "application/json" (some (JSVal.arr [])) ""
  else if r = listAttachmentsReq (JSVal.num 8) 1 50 then
    HttpResponse.mk 200 "OK" "application/json" (some (JSVal.arr [])) ""
  else
    HttpResponse.mk 200 "OK" "application/json"
      (some (JSVal.arr (List.replicate 100 c4blank))) ""

/-- C8 witness attachment: has an id but no activity/update identifier. -/
def c8att : JSVal := JSVal.obj [("id", JSVal.num 4), ("name", JSVal.str "x.png")]

/-- C9 witness attachment: eligible (id and activityId both present). -/
def c9att : JSVal :=
  JSVal.obj [("id", JSVal.num 4), ("activityId", JSVal.num 77), ("name", JSVal.str "f.pdf")]

/-- Network for the C9 witness: every request succeeds. -/
def c9net : Net := fun _ => HttpResponse.mk 200 "OK" "text/plain" none "ok"
theorem bdFetch_ok_of_resOk (res : HttpResponse) (h : resOk res.status = true) :
    bdFetch res = Except.ok (decodePayload res) := by
  unfold bdFetch
  simp [h]

theorem bdFetch_err_of_not_resOk (res : HttpResponse) (h : resOk res.status = false) :
    bdFetch res = Except.error
      (HttpError.mk res.status res.statusText (stringifyPayload (decodePayload res))) := by
  unfold bdFetch
  simp [h]

/-- C6: on every non-success HTTP status, `bdFetch` fails with an error that
carries the literal status code, the status text and the decoded body
(stringified when structured, the raw string otherwise), and the thrown
message is built from exactly those three; one `bdFetch` call performs
exactly one request, so a failure propagates immediately with no retry. -/
theorem transport_error_carries_status (net : Net) (r : Req)
    (h : resOk (net r).status = false) :
    bdFetchReq net r =
      (Except.error (HttpError.mk (net r).status (net r).statusText
        (stringifyPayload (decodePayload (net r)))), [r]) ∧
    (HttpError.mk (net r).status (net r).statusText
        (stringifyPayload (decodePayload (net r)))).message =
      "HTTP " ++ toString (net r).status ++ " " ++ (net r).statusText ++ " - "
        ++ stringifyPayload (decodePayload (net r)) := by
  refine ⟨?_, rfl⟩
  unfold bdFetchReq
  rw [bdFetch_err_of_not_resOk _ h]

/-- C6 witness: a 503 with a structured body yields the error carrying
status 503, its text, and the stringified body, after exactly one
request. -/
theorem transport_error_carries_status_witness :
    resOk (c6net c6req).status = false ∧
    bdFetchReq c6net c6req =
      (Except.error (HttpError.mk 503 "Service Unavailable"
        "\x7b\"message\":\"down\"\x7d"), [c6req]) := by
  refine ⟨rfl, ?_⟩
  exact (transport_error_carries_status c6net c6req rfl).1

/-- C3 counterexample: when the single route the code uses answers 404,
`deleteActivityAttachment` makes exactly one request and propagates that
404 as its error — it does not move on to any further candidate and no
all-candidates-exhausted error exists, refuting the claimed candidate-list
probing. -/
theorem resolver_404_cex :
    deleteActivityAttachment c3net (JSVal.num 9) (JSVal.num 5) =
      (Except.error (HttpError.mk 404 "Not Found" "Route not found"),
       [deleteAttachmentReq (JSVal.num 9) (JSVal.num 5)]) ∧
    (deleteActivityAttachment c3net (JSVal.num 9) (JSVal.num 5)).2.length = 1 := ⟨rfl, rfl⟩

/-- C3 (amended): the delete operation has no Candidate Route List — it
issues exactly one DELETE request to the single fixed route
`/activities/(activityId)/attachments/(attachmentId)`; on a 2xx status it
succeeds, and on any other status (404 included) it propagates immediately
an error carrying that literal status. -/
theorem delete_single_route_propagates (net : Net) (activityId attachmentId : JSVal) :
    (deleteActivityAttachment net activityId attachmentId).2
      = [deleteAttachmentReq activityId attachmentId] ∧
    (deleteActivityAttachment net activityId attachmentId).1
      = (if resOk (net (deleteAttachmentReq activityId attachmentId)).status = true then
          Except.ok (decodePayload (net (deleteAttachmentReq activityId attachmentId)))
        else
          Except.error (HttpError.mk (net (deleteAttachmentReq activityId attachmentId)).status
            (net (deleteAttachmentReq activityId attachmentId)).statusText
            (stringifyPayload (decodePayload (net (deleteAttachmentReq activityId attachmentId)))))) := by
  refine ⟨rfl, ?_⟩
  by_cases h : resOk (net (deleteAttachmentReq activityId attachmentId)).status = true
  · rw [if_pos h]
    exact bdFetch_ok_of_resOk _ h
  · rw [if_neg h]
    exact bdFetch_err_of_not_resOk _ (by revert h; cases resOk (net (deleteAttachmentReq activityId attachmentId)).status <;> simp)

theorem processTicket_skip (cfg : Config) (net : Net) (fuel : Nat) (t : JSVal) (st : RunSt)
    (h : optTruthy (ticketIdOf t) = false) :
    processTicket cfg net fuel t st = StepOut.next st := by
  unfold processTicket
  cases ht : ticketIdOf t with
  | none => rfl
  | some v =>
    rw [ht] at h
    simp [optTruthy] at h
    simp [h]

theorem processTickets_skip (cfg : Config) (net : Net) (fuel : Nat) (t : JSVal)
    (rest : List JSVal) (st : RunSt) (h : optTruthy (ticketIdOf t) = false) :
    processTickets cfg net fuel (t :: rest) st = processTickets cfg net fuel rest st := by
  show (match processTicket cfg net fuel t st with
    | StepOut.next st1 => processTickets cfg net fuel rest st1
    | out => out) = processTickets cfg net fuel rest st
  rw [processTicket_skip cfg net fuel t st h]

theorem processAttachment_skip (cfg : Config) (net : Net) (tid a : JSVal) (st : RunSt)
    (h : optTruthy (attIdOf a) = false) :
    processAttachment cfg net tid a st = StepOut.next st := by
  unfold processAttachment
  cases ha : attIdOf a with
  | none => rfl
  | some v =>
    rw [ha] at h
    simp [optTruthy] at h
    simp [h]

theorem processAttachments_skip (cfg : Config) (net : Net) (tid a : JSVal)
    (rest : List JSVal) (st : RunSt) (h : optTruthy (attIdOf a) = false) :
    processAttachments cfg net tid (a :: rest) st = processAttachments cfg net tid rest st := by
  show (match processAttachment cfg net tid a st with
    | StepOut.next st1 => processAttachments cfg net tid rest st1
    | out => out) = processAttachments cfg net tid rest st
  rw [processAttachment_skip cfg net tid a st h]

/-- C7: a ticket record with neither `id` nor `ticketId`, and an
attachment record with neither `id` nor `attachmentId`, are skipped
silently — the run over the remaining records is unchanged, so the counter
is untouched, no delete is issued for them, and the run continues instead
of aborting. -/
theorem missing_identifier_skipped (cfg : Config) (net : Net) (fuel : Nat)
    (t a tid : JSVal) (trest arest : List JSVal) (st : RunSt)
    (ht1 : getField t "id" = none) (ht2 : getField t "ticketId" = none)
    (ha1 : getField a "id" = none) (ha2 : getField a "attachmentId" = none) :
    processTickets cfg net fuel (t :: trest) st = processTickets cfg net fuel trest st ∧
    processAttachments cfg net tid (a :: arest) st = processAttachments cfg net tid arest st := by
  have ht : optTruthy (ticketIdOf t) = false := by
    unfold ticketIdOf
    rw [ht1, ht2]
    rfl
  have ha : optTruthy (attIdOf a) = false := by
    unfold attIdOf
    rw [ha1, ha2]
    rfl
  exact ⟨processTickets_skip cfg net fuel t trest st ht,
    processAttachments_skip cfg net tid a arest st ha⟩

/-- C7 witness: concrete id-less ticket and attachment records are
skipped. -/
theorem missing_identifier_skipped_witness :
    getField (JSVal.obj [("subject", JSVal.str "hello")]) "id" = none ∧
    getField (JSVal.obj [("subject", JSVal.str "hello")]) "ticketId" = none ∧
    getField (JSVal.obj []) "id" = none ∧
    getField (JSVal.obj []) "attachmentId" = none ∧
    (processTickets (Config.mk true 14 200 "C") nullNet 3
        [JSVal.obj [("subject", JSVal.str "hello")]] (RunSt.mk 0 [] []) =
      processTickets (Config.mk true 14 200 "C") nullNet 3
        [] (RunSt.mk 0 [] []) ∧
    processAttachments (Config.mk true 14 200 "C") nullNet
        (JSVal.num 9) [JSVal.obj []] (RunSt.mk 0 [] []) =
      processAttachments (Config.mk true 14 200 "C") nullNet
        (JSVal.num 9) [] (RunSt.mk 0 [] [])) :=
  ⟨rfl, rfl, rfl, rfl,
    missing_identifier_skipped (Config.mk true 14 200 "C")
      nullNet 3
      (JSVal.obj [("subject", JSVal.str "hello")]) (JSVal.obj []) (JSVal.num 9) [] []
      (RunSt.mk 0 [] []) rfl rfl rfl rfl⟩

/-- C8: an attachment that has an identifier but none of the
activity/update identifier fields is skipped with the distinct
cannot-delete notice and the run continues — counter and request trace
unchanged. -/
theorem missing_activity_id_skipped (cfg : Config) (net : Net) (tid a : JSVal)
    (arest : List JSVal) (st : RunSt)
    (hid : optTruthy (attIdOf a) = true)
    (h1 : getField a "activityId" = none) (h2 : getField a "updateId" = none)
    (h3 : getField a "activityID" = none) (h4 : getField a "updateID" = none) :
    processAttachment cfg net tid a st =
      StepOut.next (st.log (LogEvent.skipMissingActivity (jsToStr tid)
        (jsToStr ((attIdOf a).getD JSVal.null)) (jsToStr (nameOf a)))) ∧
    processAttachments cfg net tid (a :: arest) st =
      processAttachments cfg net tid arest
        (st.log (LogEvent.skipMissingActivity (jsToStr tid)
          (jsToStr ((attIdOf a).getD JSVal.null)) (jsToStr (nameOf a)))) := by
  have hact : getActivityIdFromAttachment a = JSVal.null := by
    unfold getActivityIdFromAttachment
    rw [h1, h2, h3, h4]
    rfl
  cases ha : attIdOf a with
  | none => rw [ha] at hid; simp [optTruthy] at hid
  | some v =>
    rw [ha] at hid
    simp only [optTruthy] at hid
    have hmain : processAttachment cfg net tid a st =
        StepOut.next (st.log (LogEvent.skipMissingActivity (jsToStr tid)
          (jsToStr v) (jsToStr (nameOf a)))) := by
      unfold processAttachment
      rw [ha, hact]
      simp only [hid]
      simp [jsTruthy]
    constructor
    · rw [hmain]
      rfl
    · show (match processAttachment cfg net tid a st with
        | StepOut.next st1 => processAttachments cfg net tid arest st1
        | out => out) = _
      rw [hmain]
      rfl

/-- C10: when the resolved identifier of a ticket or attachment record is
present but falsy (0, the empty string, false, or null) — or absent — the
record is skipped exactly like a missing-identifier record: no delete is
attempted and the counter is unchanged. -/
theorem falsy_identifier_skipped (cfg : Config) (net : Net) (fuel : Nat)
    (t a tid : JSVal) (trest arest : List JSVal) (st : RunSt)
    (ht : ticketIdOf t = none ∨ ticketIdOf t = some JSVal.null ∨
          ticketIdOf t = some (JSVal.num 0) ∨ ticketIdOf t = some (JSVal.str "") ∨
          ticketIdOf t = some (JSVal.bool false))
    (ha : attIdOf a = none ∨ attIdOf a = some JSVal.null ∨
          attIdOf a = some (JSVal.num 0) ∨ attIdOf a = some (JSVal.str "") ∨
          attIdOf a = some (JSVal.bool false)) :
    processTickets cfg net fuel (t :: trest) st = processTickets cfg net fuel trest st ∧
    processAttachments cfg net tid (a :: arest) st = processAttachments cfg net tid arest st := by
  have ht' : optTruthy (ticketIdOf t) = false := by
    rcases ht with h | h | h | h | h <;> rw [h] <;> rfl
  have ha' : optTruthy (attIdOf a) = false := by
    rcases ha with h | h | h | h | h <;> rw [h] <;> rfl
  exact ⟨processTickets_skip cfg net fuel t trest st ht',
    processAttachments_skip cfg net tid a arest st ha'⟩

/-- C9: the cap check runs only after the increment, so an eligible
attachment is fully processed — in non-dry-run mode the delete request is
issued — even when the configured maximum is 0 or negative, and the
counter then exceeds the configured maximum as the run halts. -/
theorem cap_checked_after_increment (cfg : Config) (net : Net) (tid a aid : JSVal) (st : RunSt)
    (hdry : cfg.dryRun = false)
    (hmax : cfg.maxDeletes ≤ 0)
    (hid : attIdOf a = some aid) (hidT : jsTruthy aid = true)
    (hact : jsTruthy (getActivityIdFromAttachment a) = true)
    (hok : resOk (net (deleteAttachmentReq (getActivityIdFromAttachment a) aid)).status = true) :
    processAttachment cfg net tid a st =
      StepOut.halt (RunSt.mk (st.count + 1)
        (st.reqs ++ [deleteAttachmentReq (getActivityIdFromAttachment a) aid])
        (st.logs ++ [LogEvent.deletedLine (jsToStr aid) (jsToStr (nameOf a)) (jsToStr tid)
            (jsToStr (getActivityIdFromAttachment a)),
          LogEvent.reachedMax cfg.maxDeletes,
          LogEvent.doneSummary (st.count + 1)])) ∧
    ((st.count + 1 : Int) > cfg.maxDeletes) := by
  have hgt : (st.count + 1 : Int) > cfg.maxDeletes := by omega
  refine ⟨?_, hgt⟩
  unfold processAttachment
  rw [hid]
  simp only [hidT, hact, hdry]
  rw [if_neg (show ¬(true = false) by simp), if_neg (show ¬(true = false) by simp),
    if_neg (show ¬(false = true) by simp)]
  rw [bdFetch_ok_of_resOk _ hok]
  show afterCount cfg.maxDeletes
      ((st.addReq (deleteAttachmentReq (getActivityIdFromAttachment a) aid)).log
        (LogEvent.deletedLine (jsToStr aid) (jsToStr (nameOf a)) (jsToStr tid)
          (jsToStr (getActivityIdFromAttachment a)))) = _
  unfold afterCount
  have hc2 : (((st.addReq (deleteAttachmentReq (getActivityIdFromAttachment a) aid)).log
      (LogEvent.deletedLine (jsToStr aid) (jsToStr (nameOf a)) (jsToStr tid)
        (jsToStr (getActivityIdFromAttachment a)))).incr).count = st.count + 1 := rfl
  rw [if_pos (by rw [hc2]; push_cast; omega)]
  simp [RunSt.incr, RunSt.log, RunSt.addReq, List.append_assoc, hc2]

theorem noDeleteReqs_append (l : List Req) (r : Req) (h : noDeleteReqs l)
    (hr : r.method ≠ "DELETE") : noDeleteReqs (l ++ [r]) := by
  intro x hx
  rcases List.mem_append.mp hx with h1 | h1
  · exact h x h1
  · rw [List.mem_singleton.mp h1]
    exact hr

theorem afterCount_reqs (m : Int) (st : RunSt) : (afterCount m st).state.reqs = st.reqs := by
  unfold afterCount
  by_cases h : ((st.incr.count : Int) ≥ m)
  · rw [if_pos h]
    rfl
  · rw [if_neg h]
    rfl

theorem processAttachment_dry_reqs (cfg : Config) (net : Net) (tid a : JSVal) (st : RunSt)
    (h : cfg.dryRun = true) :
    (processAttachment cfg net tid a st).state.reqs = st.reqs := by
  cases ha : attIdOf a with
  | none =>
    simp only [processAttachment, ha]
    rfl
  | some v =>
    cases hv : jsTruthy v with
    | false =>
      simp only [processAttachment, ha, hv]
      rw [if_pos trivial]
      rfl
    | true =>
      cases hw : jsTruthy (getActivityIdFromAttachment a) with
      | false =>
        simp only [processAttachment, ha, hv, hw]
        simp only [show ((true : Bool) = false) = False by simp, if_false, if_pos trivial]
        rfl
      | true =>
        simp only [processAttachment, ha, hv, hw, h]
        simp only [show ((true : Bool) = false) = False by simp, if_false, if_pos trivial]
        rw [afterCount_reqs]
        rfl

theorem processAttachments_dry_reqs (cfg : Config) (net : Net) (tid : JSVal) (l : List JSVal)
    (h : cfg.dryRun = true) :
    ∀ st : RunSt, (processAttachments cfg net tid l st).state.reqs = st.reqs := by
  induction l with
  | nil => intro st; rfl
  | cons a rest ih =>
    intro st
    show (match processAttachment cfg net tid a st with
      | StepOut.next st1 => processAttachments cfg net tid rest st1
      | out => out).state.reqs = st.reqs
    have h1 := processAttachment_dry_reqs cfg net tid a st h
    cases hpa : processAttachment cfg net tid a st with
    | next st1 =>
      rw [hpa] at h1
      show (processAttachments cfg net tid rest st1).state.reqs = st.reqs
      rw [ih st1]
      exact h1
    | halt st1 =>
      rw [hpa] at h1
      exact h1
    | err e st1 =>
      rw [hpa] at h1
      exact h1
    | fuelOut st1 =>
      rw [hpa] at h1
      exact h1

theorem attachmentLoop_noDel (cfg : Config) (net : Net) (tid : JSVal)
    (h : cfg.dryRun = true) :
    ∀ fuel page : Nat, ∀ st : RunSt, noDeleteReqs st.reqs →
      noDeleteReqs (attachmentLoop cfg net tid page fuel st).state.reqs := by
  intro fuel
  induction fuel with
  | zero => intro page st hst; exact hst
  | succ f ih =>
    intro page st hst
    have hst1 : noDeleteReqs (st.addReq (listAttachmentsReq tid page 50)).reqs :=
      noDeleteReqs_append st.reqs (listAttachmentsReq tid page 50) hst
        (show ("GET" : String) ≠ "DELETE" by decide)
    simp only [attachmentLoop]
    split
    · exact hst1
    · rename_i payload hbd
      split
      · exact hst1
      · split
        · rename_i st2 hpa
          have h2 := processAttachments_dry_reqs cfg net tid (normalizeArray payload) h
            (st.addReq (listAttachmentsReq tid page 50))
          rw [hpa] at h2
          have h3 : st2.reqs = (st.addReq (listAttachmentsReq tid page 50)).reqs := h2
          split
          · show noDeleteReqs st2.reqs
            rw [h3]
            exact hst1
          · exact ih (page + 1) st2 (by rw [h3]; exact hst1)
        · have h2 := processAttachments_dry_reqs cfg net tid (normalizeArray payload) h
            (st.addReq (listAttachmentsReq tid page 50))
          rw [h2]
          exact hst1

theorem processTicket_noDel (cfg : Config) (net : Net) (fuel : Nat) (t : JSVal)
    (h : cfg.dryRun = true) (st : RunSt) (hst : noDeleteReqs st.reqs) :
    noDeleteReqs (processTicket cfg net fuel t st).state.reqs := by
  cases ht : ticketIdOf t with
  | none =>
    simp only [processTicket, ht]
    exact hst
  | some v =>
    simp only [processTicket, ht]
    by_cases hv : jsTruthy v = true
    · rw [if_pos hv]
      exact attachmentLoop_noDel cfg net v h fuel 1 st hst
    · rw [if_neg hv]
      exact hst

theorem processTickets_noDel (cfg : Config) (net : Net) (fuel : Nat) (l : List JSVal)
    (h : cfg.dryRun = true) :
    ∀ st : RunSt, noDeleteReqs st.reqs →
      noDeleteReqs (processTickets cfg net fuel l st).state.reqs := by
  induction l with
  | nil => intro st hst; exact hst
  | cons t rest ih =>
    intro st hst
    show noDeleteReqs (match processTicket cfg net fuel t st with
      | StepOut.next st1 => processTickets cfg net fuel rest st1
      | out => out).state.reqs
    have h1 := processTicket_noDel cfg net fuel t h st hst
    cases hpt : processTicket cfg net fuel t st with
    | next st1 =>
      rw [hpt] at h1
      exact ih st1 h1
    | halt st1 => rw [hpt] at h1; exact h1
    | err e st1 => rw [hpt] at h1; exact h1
    | fuelOut st1 => rw [hpt] at h1; exact h1

theorem ticketLoop_noDel (cfg : Config) (net : Net) (h : cfg.dryRun = true) :
    ∀ fuel page : Nat, ∀ st : RunSt, noDeleteReqs st.reqs →
      noDeleteReqs (ticketLoop cfg net page fuel st).state.reqs := by
  intro fuel
  induction fuel with
  | zero => intro page st hst; exact hst
  | succ f ih =>
    intro page st hst
    have hst1 : noDeleteReqs (st.addReq (listTicketsReq cfg.cutoffEncoded page 100)).reqs :=
      noDeleteReqs_append st.reqs (listTicketsReq cfg.cutoffEncoded page 100) hst
        (show ("GET" : String) ≠ "DELETE" by decide)
    simp only [ticketLoop]
    split
    · exact hst1
    · rename_i payload hbd
      split
      · exact hst1
      · split
        · rename_i st2 hpt
          have h2 := processTickets_noDel cfg net f (normalizeArray payload) h
            (st.addReq (listTicketsReq cfg.cutoffEncoded page 100)) hst1
          rw [hpt] at h2
          have h3 : noDeleteReqs st2.reqs := h2
          split
          · exact h3
          · exact ih (page + 1) st2 h3
        · exact processTickets_noDel cfg net f (normalizeArray payload) h
            (st.addReq (listTicketsReq cfg.cutoffEncoded page 100)) hst1

theorem ne_true_false : ¬(true = false) := by simp

theorem processAttachment_dry_eligible (cfg : Config) (net : Net) (tid a : JSVal) (st : RunSt)
    (h : cfg.dryRun = true)
    (hid : optTruthy (attIdOf a) = true)
    (hact : jsTruthy (getActivityIdFromAttachment a) = true) :
    processAttachment cfg net tid a st =
      afterCount cfg.maxDeletes (st.log (LogEvent.dryRunWouldDelete
        (jsToStr ((attIdOf a).getD JSVal.null)) (jsToStr (nameOf a)) (jsToStr tid)
        (jsToStr (getActivityIdFromAttachment a)))) := by
  cases ha : attIdOf a with
  | none => rw [ha] at hid; simp [optTruthy] at hid
  | some v =>
    rw [ha] at hid
    simp only [optTruthy] at hid
    simp only [processAttachment, ha, hid, hact, h]
    rw [if_pos trivial]
    rfl

theorem afterCount_count (m : Int) (st : RunSt) :
    (afterCount m st).state.count = st.count + 1 := by
  unfold afterCount
  by_cases h : ((st.incr.count : Int) ≥ m)
  · rw [if_pos h]
    rfl
  · rw [if_neg h]
    rfl

theorem afterCount_logs (m : Int) (st : RunSt) :
    ∃ tail, (afterCount m st).state.logs = st.logs ++ tail := by
  unfold afterCount
  by_cases h : ((st.incr.count : Int) ≥ m)
  · rw [if_pos h]
    exact ⟨[LogEvent.reachedMax m, LogEvent.doneSummary st.incr.count],
      by simp [StepOut.state, RunSt.incr, RunSt.log]⟩
  · rw [if_neg h]
    exact ⟨[], by simp [StepOut.state, RunSt.incr]⟩

theorem run_state_reqs (cfg : Config) (net : Net) (fuel : Nat) :
    (run cfg net fuel).state.reqs =
      (ticketLoop cfg net 1 fuel
        (RunSt.mk 0 [] [LogEvent.startLine cfg.days cfg.dryRun cfg.maxDeletes])).state.reqs := by
  simp only [run]
  split
  · rename_i st1 heq
    rw [heq]
    rfl
  · rfl

/-- C1: in a dry-run, no DELETE request ever appears in the run's request
trace, for every network and any amount of fuel; each eligible attachment
is only logged as an intended deletion and counted. -/
theorem dry_run_never_deletes (cfg : Config) (net : Net) (fuel : Nat)
    (h : cfg.dryRun = true) :
    (∀ r ∈ (run cfg net fuel).state.reqs, r.method ≠ "DELETE") ∧
    (∀ (tid a : JSVal) (st : RunSt),
      optTruthy (attIdOf a) = true →
      jsTruthy (getActivityIdFromAttachment a) = true →
      (processAttachment cfg net tid a st).state.reqs = st.reqs ∧
      (processAttachment cfg net tid a st).state.count = st.count + 1 ∧
      ∃ tail, (processAttachment cfg net tid a st).state.logs =
        st.logs ++ LogEvent.dryRunWouldDelete (jsToStr ((attIdOf a).getD JSVal.null))
          (jsToStr (nameOf a)) (jsToStr tid) (jsToStr (getActivityIdFromAttachment a)) :: tail) := by
  constructor
  · have h0 : noDeleteReqs (RunSt.mk 0 [] [LogEvent.startLine cfg.days cfg.dryRun cfg.maxDeletes]).reqs := by
      intro r hr
      simp at hr
    have hmain := ticketLoop_noDel cfg net h fuel 1
      (RunSt.mk 0 [] [LogEvent.startLine cfg.days cfg.dryRun cfg.maxDeletes]) h0
    rw [run_state_reqs]
    exact hmain
  · intro tid a st hid hact
    rw [processAttachment_dry_eligible cfg net tid a st h hid hact]
    refine ⟨afterCount_reqs _ _, ?_, ?_⟩
    · rw [afterCount_count]
      rfl
    · rcases afterCount_logs cfg.maxDeletes (st.log (LogEvent.dryRunWouldDelete
        (jsToStr ((attIdOf a).getD JSVal.null)) (jsToStr (nameOf a)) (jsToStr tid)
        (jsToStr (getActivityIdFromAttachment a)))) with ⟨tail, htail⟩
      refine ⟨tail, ?_⟩
      rw [htail]
      simp [RunSt.log]

theorem afterCount_capOK (m : Int) (st : RunSt) (h : (st.count : Int) < m) :
    capOK m (afterCount m st) := by
  unfold afterCount
  by_cases hge : ((st.incr.count : Int) ≥ m)
  · rw [if_pos hge]
    show ((((st.incr.log (LogEvent.reachedMax m)).log
        (LogEvent.doneSummary st.incr.count)).count : Int) = m ∧
      ∃ pre, ((st.incr.log (LogEvent.reachedMax m)).log
        (LogEvent.doneSummary st.incr.count)).logs = pre ++ [LogEvent.reachedMax m,
          LogEvent.doneSummary ((st.incr.log (LogEvent.reachedMax m)).log
            (LogEvent.doneSummary st.incr.count)).count])
    have hc : st.incr.count = st.count + 1 := rfl
    constructor
    · show ((st.incr.count : Int) = m)
      rw [hc] at hge ⊢
      push_cast at hge ⊢
      omega
    · exact ⟨st.logs, by simp [RunSt.incr, RunSt.log]⟩
  · rw [if_neg hge]
    show ((st.incr.count : Int) < m)
    push_cast at hge ⊢
    omega

theorem processAttachment_capOK (cfg : Config) (net : Net) (tid a : JSVal) (st : RunSt)
    (h : (st.count : Int) < cfg.maxDeletes) :
    capOK cfg.maxDeletes (processAttachment cfg net tid a st) := by
  cases ha : attIdOf a with
  | none =>
    simp only [processAttachment, ha]
    exact h
  | some v =>
    cases hv : jsTruthy v with
    | false =>
      simp only [processAttachment, ha, hv]
      rw [if_pos trivial]
      exact h
    | true =>
      cases hw : jsTruthy (getActivityIdFromAttachment a) with
      | false =>
        simp only [processAttachment, ha, hv, hw]
        simp only [show ((true : Bool) = false) = False by simp, if_false, if_pos trivial]
        exact h
      | true =>
        cases hd : cfg.dryRun with
        | true =>
          simp only [processAttachment, ha, hv, hw, hd]
          simp only [show ((true : Bool) = false) = False by simp, if_false, if_pos trivial]
          exact afterCount_capOK cfg.maxDeletes _ h
        | false =>
          simp only [processAttachment, ha, hv, hw, hd]
          simp only [show ((true : Bool) = false) = False by simp,
            show ((false : Bool) = true) = False by simp, if_false]
          cases hbd : bdFetch (net (deleteAttachmentReq (getActivityIdFromAttachment a) v)) with
          | error e => exact h
          | ok payload => exact afterCount_capOK cfg.maxDeletes _ h

theorem processAttachments_capOK (cfg : Config) (net : Net) (tid : JSVal) (l : List JSVal) :
    ∀ st : RunSt, (st.count : Int) < cfg.maxDeletes →
      capOK cfg.maxDeletes (processAttachments cfg net tid l st) := by
  induction l with
  | nil => intro st h; exact h
  | cons a rest ih =>
    intro st h
    show capOK cfg.maxDeletes (match processAttachment cfg net tid a st with
      | StepOut.next st1 => processAttachments cfg net tid rest st1
      | out => out)
    have h1 := processAttachment_capOK cfg net tid a st h
    cases hpa : processAttachment cfg net tid a st with
    | next st1 =>
      rw [hpa] at h1
      exact ih st1 h1
    | halt st1 => rw [hpa] at h1; exact h1
    | err e st1 => rw [hpa] at h1; exact h1
    | fuelOut st1 => rw [hpa] at h1; exact h1

theorem attachmentLoop_capOK (cfg : Config) (net : Net) (tid : JSVal) :
    ∀ fuel page : Nat, ∀ st : RunSt, (st.count : Int) < cfg.maxDeletes →
      capOK cfg.maxDeletes (attachmentLoop cfg net tid page fuel st) := by
  intro fuel
  induction fuel with
  | zero => intro page st h; exact h
  | succ f ih =>
    intro page st h
    have h1 : ((st.addReq (listAttachmentsReq tid page 50)).count : Int) < cfg.maxDeletes := h
    simp only [attachmentLoop]
    split
    · exact h1
    · rename_i payload hbd
      split
      · exact h1
      · have h2 := processAttachments_capOK cfg net tid (normalizeArray payload)
          (st.addReq (listAttachmentsReq tid page 50)) h1
        split
        · rename_i st2 hpa
          rw [hpa] at h2
          split
          · exact h2
          · exact ih (page + 1) st2 h2
        · exact h2

theorem processTicket_capOK (cfg : Config) (net : Net) (fuel : Nat) (t : JSVal) (st : RunSt)
    (h : (st.count : Int) < cfg.maxDeletes) :
    capOK cfg.maxDeletes (processTicket cfg net fuel t st) := by
  cases ht : ticketIdOf t with
  | none =>
    simp only [processTicket, ht]
    exact h
  | some v =>
    simp only [processTicket, ht]
    split
    · exact attachmentLoop_capOK cfg net v fuel 1 st h
    · exact h

theorem processTickets_capOK (cfg : Config) (net : Net) (fuel : Nat) (l : List JSVal) :
    ∀ st : RunSt, (st.count : Int) < cfg.maxDeletes →
      capOK cfg.maxDeletes (processTickets cfg net fuel l st) := by
  induction l with
  | nil => intro st h; exact h
  | cons t rest ih =>
    intro st h
    show capOK cfg.maxDeletes (match processTicket cfg net fuel t st with
      | StepOut.next st1 => processTickets cfg net fuel rest st1
      | out => out)
    have h1 := processTicket_capOK cfg net fuel t st h
    cases hpt : processTicket cfg net fuel t st with
    | next st1 =>
      rw [hpt] at h1
      exact ih st1 h1
    | halt st1 => rw [hpt] at h1; exact h1
    | err e st1 => rw [hpt] at h1; exact h1
    | fuelOut st1 => rw [hpt] at h1; exact h1

theorem ticketLoop_capOK (cfg : Config) (net : Net) :
    ∀ fuel page : Nat, ∀ st : RunSt, (st.count : Int) < cfg.maxDeletes →
      capOK cfg.maxDeletes (ticketLoop cfg net page fuel st) := by
  intro fuel
  induction fuel with
  | zero => intro page st h; exact h
  | succ f ih =>
    intro page st h
    have h1 : ((st.addReq (listTicketsReq cfg.cutoffEncoded page 100)).count : Int) <
      cfg.maxDeletes := h
    simp only [ticketLoop]
    split
    · exact h1
    · rename_i payload hbd
      split
      · exact h1
      · have h2 := processTickets_capOK cfg net f (normalizeArray payload)
          (st.addReq (listTicketsReq cfg.cutoffEncoded page 100)) h1
        split
        · rename_i st2 hpt
          rw [hpt] at h2
          split
          · exact h2
          · exact ih (page + 1) st2 h2
        · exact h2

/-- C2 counterexample: with MAX_DELETES = 0 and one eligible attachment,
the processed counter ends at 1, exceeding the configured maximum —
refuting "the counter never exceeds the configured maximum" as stated. -/
theorem counter_exceeds_cap_cex :
    c2cfg.maxDeletes = 0 ∧
    ((run c2cfg c2net 5).state.count : Int) > c2cfg.maxDeletes := by
  constructor
  · rfl
  · show ((1 : Nat) : Int) > (0 : Int)
    decide

theorem run_capOK (cfg : Config) (net : Net) (fuel : Nat)
    (h : (0 : Int) < cfg.maxDeletes) :
    capOK cfg.maxDeletes (run cfg net fuel) := by
  have h0 : (((RunSt.mk 0 [] [LogEvent.startLine cfg.days cfg.dryRun
      cfg.maxDeletes]).count : Int)) < cfg.maxDeletes := by
    show ((0 : Nat) : Int) < cfg.maxDeletes
    push_cast
    omega
  have hcap := ticketLoop_capOK cfg net fuel 1
    (RunSt.mk 0 [] [LogEvent.startLine cfg.days cfg.dryRun cfg.maxDeletes]) h0
  simp only [run]
  split
  · rename_i st1 heq
    rw [heq] at hcap
    show (((st1.log (LogEvent.doneSummary st1.count)).count : Int) < cfg.maxDeletes)
    exact hcap
  · exact hcap

/-- C2 (amended): provided the configured maximum is at least 1, the
processed counter never exceeds it, and whenever the run halts early the
counter sits exactly at the maximum with the reached-max and summary lines
emitted last — the halt aborts both loops at the attachment that reached
the cap. -/
theorem counter_never_exceeds_cap (cfg : Config) (net : Net) (fuel : Nat)
    (h : 1 ≤ cfg.maxDeletes) :
    (((run cfg net fuel).state.count : Int) ≤ cfg.maxDeletes) ∧
    (∀ st, run cfg net fuel = StepOut.halt st →
      (st.count : Int) = cfg.maxDeletes ∧
      ∃ pre, st.logs = pre ++ [LogEvent.reachedMax cfg.maxDeletes,
        LogEvent.doneSummary st.count]) := by
  have hro := run_capOK cfg net fuel (by omega)
  constructor
  · cases hout : run cfg net fuel with
    | next st1 =>
      rw [hout] at hro
      exact le_of_lt hro
    | halt st1 =>
      rw [hout] at hro
      exact le_of_eq hro.1
    | err e st1 =>
      rw [hout] at hro
      exact le_of_lt hro
    | fuelOut st1 =>
      rw [hout] at hro
      exact le_of_lt hro
  · intro st hrun
    rw [hrun] at hro
    exact hro

theorem processTickets_skipAll (cfg : Config) (net : Net) (fuel : Nat) :
    ∀ l : List JSVal, (∀ t ∈ l, optTruthy (ticketIdOf t) = false) →
      ∀ st : RunSt, processTickets cfg net fuel l st = StepOut.next st := by
  intro l
  induction l with
  | nil => intro _ st; rfl
  | cons t rest ih =>
    intro h st
    rw [processTickets_skip cfg net fuel t rest st (h t (List.mem_cons_self t rest))]
    exact ih (fun x hx => h x (List.mem_cons_of_mem t hx)) st

theorem processAttachments_skipAll (cfg : Config) (net : Net) (tid : JSVal) :
    ∀ l : List JSVal, (∀ a ∈ l, optTruthy (attIdOf a) = false) →
      ∀ st : RunSt, processAttachments cfg net tid l st = StepOut.next st := by
  intro l
  induction l with
  | nil => intro _ st; rfl
  | cons a rest ih =>
    intro h st
    rw [processAttachments_skip cfg net tid a rest st (h a (List.mem_cons_self a rest))]
    exact ih (fun x hx => h x (List.mem_cons_of_mem a hx)) st

theorem ticketLoop_walk (cfg : Config) (net : Net) (k : Nat)
    (pages : Nat → List JSVal) (resp : Nat → JSVal)
    (hbd : ∀ p, 1 ≤ p → p ≤ k →
      bdFetch (net (listTicketsReq cfg.cutoffEncoded p 100)) = Except.ok (resp p))
    (hpages : ∀ p, 1 ≤ p → p ≤ k → normalizeArray (resp p) = pages p)
    (hfull : ∀ p, 1 ≤ p → p < k → (pages p).length = 100)
    (hshort : (pages k).length < 100)
    (hid : ∀ p, 1 ≤ p → p ≤ k → ∀ t ∈ pages p, optTruthy (ticketIdOf t) = false) :
    ∀ fuel p : Nat, ∀ st : RunSt, 1 ≤ p → p ≤ k → k < fuel + p →
      ticketLoop cfg net p fuel st = StepOut.next
        (RunSt.mk st.count
          (st.reqs ++ (List.range' p (k + 1 - p)).map
            (fun q => listTicketsReq cfg.cutoffEncoded q 100))
          (st.logs ++ (if (pages k).length = 0 then [LogEvent.noMoreTickets] else []))) := by
  intro fuel
  induction fuel with
  | zero => intro p st hp1 hpk hf; omega
  | succ f ih =>
    intro p st hp1 hpk hf
    simp only [ticketLoop]
    split
    · rename_i e heq
      rw [hbd p hp1 hpk] at heq
      cases heq
    · rename_i payload heq
      rw [hbd p hp1 hpk] at heq
      injection heq with heqp
      subst heqp
      rw [hpages p hp1 hpk]
      by_cases hpk2 : p = k
      · subst hpk2
        by_cases hz : (pages p).length = 0
        · rw [if_pos hz, if_pos hz]
          have hr : p + 1 - p = 1 := by omega
          rw [hr]
          simp [RunSt.addReq, RunSt.log]
        · rw [if_neg hz, if_neg hz]
          rw [processTickets_skipAll cfg net f (pages p) (hid p hp1 hpk) _]
          show (if (pages p).length < 100 then
              StepOut.next (st.addReq (listTicketsReq cfg.cutoffEncoded p 100))
            else ticketLoop cfg net (p + 1) f
              (st.addReq (listTicketsReq cfg.cutoffEncoded p 100))) = _
          rw [if_pos hshort]
          have hr : p + 1 - p = 1 := by omega
          rw [hr]
          simp [RunSt.addReq, RunSt.log]
      · have hplt : p < k := by omega
        have h100 := hfull p hp1 hplt
        rw [if_neg (by omega)]
        rw [processTickets_skipAll cfg net f (pages p) (hid p hp1 hpk) _]
        show (if (pages p).length < 100 then
            StepOut.next (st.addReq (listTicketsReq cfg.cutoffEncoded p 100))
          else ticketLoop cfg net (p + 1) f
            (st.addReq (listTicketsReq cfg.cutoffEncoded p 100))) = _
        rw [if_neg (by omega)]
        have hrec := ih (p + 1) (st.addReq (listTicketsReq cfg.cutoffEncoded p 100))
          (by omega) (by omega) (by omega)
        rw [hrec]
        have hr : k + 1 - p = (k - p) + 1 := by omega
        have hr2 : k + 1 - (p + 1) = k - p := by omega
        rw [hr, hr2]
        simp [RunSt.addReq, RunSt.log, List.range'_succ, List.append_assoc]

theorem attachmentLoop_walk (cfg : Config) (net : Net) (tid : JSVal) (k : Nat)
    (pages : Nat → List JSVal) (resp : Nat → JSVal)
    (hbd : ∀ p, 1 ≤ p → p ≤ k →
      bdFetch (net (listAttachmentsReq tid p 50)) = Except.ok (resp p))
    (hpages : ∀ p, 1 ≤ p → p ≤ k → normalizeArray (resp p) = pages p)
    (hfull : ∀ p, 1 ≤ p → p < k → (pages p).length = 50)
    (hshort : (pages k).length < 50)
    (hid : ∀ p, 1 ≤ p → p ≤ k → ∀ a ∈ pages p, optTruthy (attIdOf a) = false) :
    ∀ fuel p : Nat, ∀ st : RunSt, 1 ≤ p → p ≤ k → k < fuel + p →
      attachmentLoop cfg net tid p fuel st = StepOut.next
        (RunSt.mk st.count
          (st.reqs ++ (List.range' p (k + 1 - p)).map
            (fun q => listAttachmentsReq tid q 50))
          st.logs) := by
  intro fuel
  induction fuel with
  | zero => intro p st hp1 hpk hf; omega
  | succ f ih =>
    intro p st hp1 hpk hf
    simp only [attachmentLoop]
    split
    · rename_i e heq
      rw [hbd p hp1 hpk] at heq
      cases heq
    · rename_i payload heq
      rw [hbd p hp1 hpk] at heq
      injection heq with heqp
      subst heqp
      rw [hpages p hp1 hpk]
      by_cases hpk2 : p = k
      · subst hpk2
        by_cases hz : (pages p).length = 0
        · rw [if_pos hz]
          have hr : p + 1 - p = 1 := by omega
          rw [hr]
          simp [RunSt.addReq]
        · rw [if_neg hz]
          rw [processAttachments_skipAll cfg net tid (pages p) (hid p hp1 hpk) _]
          show (if (pages p).length < 50 then
              StepOut.next (st.addReq (listAttachmentsReq tid p 50))
            else attachmentLoop cfg net tid (p + 1) f
              (st.addReq (listAttachmentsReq tid p 50))) = _
          rw [if_pos hshort]
          have hr : p + 1 - p = 1 := by omega
          rw [hr]
          simp [RunSt.addReq]
      · have hplt : p < k := by omega
        have h50 := hfull p hp1 hplt
        rw [if_neg (by omega)]
        rw [processAttachments_skipAll cfg net tid (pages p) (hid p hp1 hpk) _]
        show (if (pages p).length < 50 then
            StepOut.next (st.addReq (listAttachmentsReq tid p 50))
          else attachmentLoop cfg net tid (p + 1) f
            (st.addReq (listAttachmentsReq tid p 50))) = _
        rw [if_neg (by omega)]
        have hrec := ih (p + 1) (st.addReq (listAttachmentsReq tid p 50))
          (by omega) (by omega) (by omega)
        rw [hrec]
        have hr : k + 1 - p = (k - p) + 1 := by omega
        have hr2 : k + 1 - (p + 1) = k - p := by omega
        rw [hr, hr2]
        simp [RunSt.addReq, List.range'_succ, List.append_assoc]

/-- C4: both Pagination Walkers request pages 1, 2, 3, … with their fixed
page size (100 for tickets, 50 for attachments) and stop exactly at the
first page that is empty or shorter than the requested size: with k-1 full
pages and a short or empty page k, exactly k listing requests are issued,
for pages 1 through k in order. -/
theorem pagination_stops_on_short_or_empty (cfg : Config) (net : Net) (tid : JSVal)
    (k : Nat) (pages : Nat → List JSVal) (resp : Nat → JSVal) (fuelT : Nat) (stT : RunSt)
    (k2 : Nat) (pages2 : Nat → List JSVal) (resp2 : Nat → JSVal) (fuelA : Nat) (stA : RunSt)
    (hk : 1 ≤ k) (hfuel : k < fuelT + 1)
    (hbd : ∀ p, 1 ≤ p → p ≤ k →
      bdFetch (net (listTicketsReq cfg.cutoffEncoded p 100)) = Except.ok (resp p))
    (hpages : ∀ p, 1 ≤ p → p ≤ k → normalizeArray (resp p) = pages p)
    (hfull : ∀ p, 1 ≤ p → p < k → (pages p).length = 100)
    (hshort : (pages k).length < 100)
    (hid : ∀ p, 1 ≤ p → p ≤ k → ∀ t ∈ pages p, optTruthy (ticketIdOf t) = false)
    (hk2 : 1 ≤ k2) (hfuel2 : k2 < fuelA + 1)
    (hbd2 : ∀ p, 1 ≤ p → p ≤ k2 →
      bdFetch (net (listAttachmentsReq tid p 50)) = Except.ok (resp2 p))
    (hpages2 : ∀ p, 1 ≤ p → p ≤ k2 → normalizeArray (resp2 p) = pages2 p)
    (hfull2 : ∀ p, 1 ≤ p → p < k2 → (pages2 p).length = 50)
    (hshort2 : (pages2 k2).length < 50)
    (hid2 : ∀ p, 1 ≤ p → p ≤ k2 → ∀ a ∈ pages2 p, optTruthy (attIdOf a) = false) :
    (ticketLoop cfg net 1 fuelT stT = StepOut.next
      (RunSt.mk stT.count
        (stT.reqs ++ (List.range' 1 k).map (fun q => listTicketsReq cfg.cutoffEncoded q 100))
        (stT.logs ++ (if (pages k).length = 0 then [LogEvent.noMoreTickets] else []))) ∧
      ((List.range' 1 k).map (fun q => listTicketsReq cfg.cutoffEncoded q 100)).length = k) ∧
    (attachmentLoop cfg net tid 1 fuelA stA = StepOut.next
      (RunSt.mk stA.count
        (stA.reqs ++ (List.range' 1 k2).map (fun q => listAttachmentsReq tid q 50))
        stA.logs) ∧
      ((List.range' 1 k2).map (fun q => listAttachmentsReq tid q 50)).length = k2) := by
  have e1 : k + 1 - 1 = k := by omega
  have e2 : k2 + 1 - 1 = k2 := by omega
  have hT := ticketLoop_walk cfg net k pages resp hbd hpages hfull hshort hid
    fuelT 1 stT (by omega) hk (by omega)
  have hA := attachmentLoop_walk cfg net tid k2 pages2 resp2 hbd2 hpages2 hfull2 hshort2 hid2
    fuelA 1 stA (by omega) hk2 (by omega)
  rw [e1] at hT
  rw [e2] at hA
  exact ⟨⟨hT, by simp⟩, ⟨hA, by simp⟩⟩

/-- C4 witness: ticket pages of sizes [100, 100, 37] yield exactly 3
requests, and sizes [100, 100, 100, 0] yield exactly 4, the empty 4th page
ending the walk with the no-more-tickets log line. -/
theorem pagination_stops_on_short_or_empty_witness :
    (1 ≤ 3 ∧ 3 < 5 + 1 ∧ (c4pagesA 1).length = 100 ∧ (c4pagesA 2).length = 100 ∧
      (c4pagesA 3).length = 37 ∧
      ticketLoop c4cfg c4netA 1 5 (RunSt.mk 0 [] []) = StepOut.next
        (RunSt.mk 0
          ((List.range' 1 3).map (fun q => listTicketsReq "C4" q 100))
          []) ∧
      ((List.range' 1 3).map (fun q => listTicketsReq "C4" q 100)).length = 3 ∧
      attachmentLoop c4cfg c4netA (JSVal.num 8) 1 5 (RunSt.mk 0 [] []) = StepOut.next
        (RunSt.mk 0 ((List.range' 1 1).map (fun q => listAttachmentsReq (JSVal.num 8) q 50)) []) ∧
      ((List.range' 1 1).map (fun q => listAttachmentsReq (JSVal.num 8) q 50)).length = 1) ∧
    (1 ≤ 4 ∧ 4 < 5 + 1 ∧ (c4pagesB 1).length = 100 ∧ (c4pagesB 2).length = 100 ∧
      (c4pagesB 3).length = 100 ∧ (c4pagesB 4).length = 0 ∧
      ticketLoop c4cfg c4netB 1 5 (RunSt.mk 0 [] []) = StepOut.next
        (RunSt.mk 0
          ((List.range' 1 4).map (fun q => listTicketsReq "C4" q 100))
          [LogEvent.noMoreTickets]) ∧
      ((List.range' 1 4).map (fun q => listTicketsReq "C4" q 100)).length = 4) := by
  have hidA : ∀ p, 1 ≤ p → p ≤ 3 → ∀ t ∈ c4pagesA p, optTruthy (ticketIdOf t) = false := by
    intro p h1 h2 t ht
    have he : t = c4blank := by
      revert ht
      interval_cases p <;> (intro ht; exact List.eq_of_mem_replicate ht)
    rw [he]
    rfl
  have hA := pagination_stops_on_short_or_empty c4cfg c4netA (JSVal.num 8)
    3 c4pagesA c4respA 5 (RunSt.mk 0 [] [])
    1 (fun _ => [JSVal.obj [("x", JSVal.num 1)]]) (fun _ => JSVal.arr [JSVal.obj [("x", JSVal.num 1)]])
    5 (RunSt.mk 0 [] [])
    (by omega) (by omega)
    (by intro p h1 h2; interval_cases p <;> rfl)
    (by intro p h1 h2; interval_cases p <;> rfl)
    (by intro p h1 h2; interval_cases p <;> decide)
    (by decide)
    hidA
    (by omega) (by omega)
    (by intro p h1 h2; interval_cases p; rfl)
    (by intro p h1 h2; interval_cases p; rfl)
    (by intro p h1 h2; omega)
    (by decide)
    (by intro p h1 h2 a ha; interval_cases p; simp at ha; rw [ha]; rfl)
  have hidB : ∀ p, 1 ≤ p → p ≤ 4 → ∀ t ∈ c4pagesB p, optTruthy (ticketIdOf t) = false := by
    intro p h1 h2 t ht
    have he : t = c4blank := by
      revert ht
      interval_cases p <;> (intro ht; first
        | exact List.eq_of_mem_replicate ht
        | exact absurd ht (by simp [c4pagesB]))
    rw [he]
    rfl
  have hB := pagination_stops_on_short_or_empty c4cfg c4netB (JSVal.num 8)
    4 c4pagesB c4respB 5 (RunSt.mk 0 [] [])
    1 (fun _ => []) (fun _ => JSVal.arr [])
    5 (RunSt.mk 0 [] [])
    (by omega) (by omega)
    (by intro p h1 h2; interval_cases p <;> rfl)
    (by intro p h1 h2; interval_cases p <;> rfl)
    (by intro p h1 h2; interval_cases p <;> decide)
    (by decide)
    hidB
    (by omega) (by omega)
    (by intro p h1 h2; interval_cases p; rfl)
    (by intro p h1 h2; interval_cases p; rfl)
    (by intro p h1 h2; omega)
    (by decide)
    (by intro p h1 h2 a ha; simp at ha)
  refine ⟨⟨by omega, by omega, by decide, by decide, by decide, ?_, by decide, ?_, by decide⟩,
    ⟨by omega, by omega, by decide, by decide, by decide, by decide, ?_, by decide⟩⟩
  · have h1 := hA.1.1
    rw [h1]
    rfl
  · have h2 := hA.2.1
    rw [h2]
    rfl
  · have h3 := hB.1.1
    rw [h3]
    rfl
theorem normalizeArray_eq_amended (resp : JSVal) :
    normalizeArray resp = normalizeArraySpecAmended resp := by
  unfold normalizeArray normalizeArraySpecAmended
  cases hd : getField resp "data" with
  | none =>
    cases hr : getField resp "result" with
    | none => cases resp <;> simp [coalesce]
    | some w => cases w <;> simp [coalesce]; cases resp <;> simp
  | some v =>
    cases v with
    | null =>
      cases hr : getField resp "result" with
      | none => cases resp <;> simp [coalesce]
      | some w => cases w <;> simp [coalesce]; cases resp <;> simp
    | _ => simp [coalesce]

/-- C5 counterexample: on the body with a null-valued `data` field next to an
array-valued `result` field, the source normalizer returns the `result`
array, while the claim's stated resolution rule ("if the body has a `data`
field, use it") yields the empty sequence. -/
theorem normalizeArray_field_precedence_cex :
    normalizeArray (JSVal.obj [("data", JSVal.null), ("result", JSVal.arr [JSVal.num 1])])
      = [JSVal.num 1] ∧
    normalizeArraySpecWorded (JSVal.obj [("data", JSVal.null),
      ("result", JSVal.arr [JSVal.num 1])]) = [] ∧
    normalizeArray (JSVal.obj [("data", JSVal.null), ("result", JSVal.arr [JSVal.num 1])]) ≠
      normalizeArraySpecWorded (JSVal.obj [("data", JSVal.null),
        ("result", JSVal.arr [JSVal.num 1])]) := by
  refine ⟨rfl, rfl, ?_⟩
  intro h
  have h2 : ([JSVal.num 1] : List JSVal) = [] := h
  cases h2

/-- C5 (amended): the Response Normalizer resolves by nullish precedence — a
`data` field whose value is not null wins, else a non-null `result` field,
else the body itself (null-valued `data`/`result` fields are skipped over);
a non-array resolved value yields the empty sequence and the call never
fails; all the claim's enumerated particular cases hold as stated. -/
theorem normalizeArray_resolution (resp : JSVal) :
    normalizeArray resp = normalizeArraySpecAmended resp ∧
    normalizeArray (JSVal.obj []) = [] ∧
    normalizeArray (JSVal.obj [("unrelated", JSVal.num 1)]) = [] ∧
    normalizeArray JSVal.null = [] ∧
    normalizeArray (JSVal.num 7) = [] ∧
    (∀ xs, normalizeArray (JSVal.obj [("data", JSVal.arr xs)]) = xs) ∧
    (∀ xs, normalizeArray (JSVal.obj [("result", JSVal.arr xs)]) = xs) ∧
    (∀ xs, normalizeArray (JSVal.arr xs) = xs) :=
  ⟨normalizeArray_eq_amended resp, rfl, rfl, rfl, rfl,
    fun _ => rfl, fun _ => rfl, fun _ => rfl⟩

/-- C1 witness: a dry-run over a listing holding one eligible attachment
issues no DELETE request. -/
theorem dry_run_never_deletes_witness :
    (Config.mk true 14 200 "C1").dryRun = true ∧
    (∀ r ∈ (run (Config.mk true 14 200 "C1") c1net 5).state.reqs, r.method ≠ "DELETE") :=
  ⟨rfl, (dry_run_never_deletes (Config.mk true 14 200 "C1") c1net 5 rfl).1⟩

/-- C2 witness: with MAX_DELETES = 1 and two eligible attachments, the run
stays within the cap and any halt sits exactly at it. -/
theorem counter_never_exceeds_cap_witness :
    1 ≤ c2wcfg.maxDeletes ∧
    ((run c2wcfg c2wnet 5).state.count : Int) ≤ c2wcfg.maxDeletes ∧
    (∀ st, run c2wcfg c2wnet 5 = StepOut.halt st →
      (st.count : Int) = c2wcfg.maxDeletes ∧
      ∃ pre, st.logs = pre ++ [LogEvent.reachedMax c2wcfg.maxDeletes,
        LogEvent.doneSummary st.count]) := by
  have h := counter_never_exceeds_cap c2wcfg c2wnet 5 (by decide)
  exact ⟨by decide, h.1, h.2⟩

/-- C8 witness: an attachment with an id but no activity/update identifier
is skipped with the distinct notice, leaving counter and requests
untouched. -/
theorem missing_activity_id_skipped_witness :
    optTruthy (attIdOf c8att) = true ∧
    getField c8att "activityId" = none ∧ getField c8att "updateId" = none ∧
    getField c8att "activityID" = none ∧ getField c8att "updateID" = none ∧
    processAttachment (Config.mk false 14 200 "C8") nullNet (JSVal.num 9) c8att
        (RunSt.mk 0 [] []) =
      StepOut.next (RunSt.mk 0 [] [LogEvent.skipMissingActivity "9" "4" "x.png"]) := by
  refine ⟨rfl, rfl, rfl, rfl, rfl, ?_⟩
  exact ((missing_activity_id_skipped (Config.mk false 14 200 "C8") nullNet (JSVal.num 9)
    c8att [] (RunSt.mk 0 [] []) rfl rfl rfl rfl rfl).1).trans (by rfl)

/-- C9 witness: with MAX_DELETES = 0 and an eligible attachment, the delete
request is still issued and the run halts with the counter at 1 > 0. -/
theorem cap_checked_after_increment_witness :
    (Config.mk false 14 0 "C9").dryRun = false ∧
    (Config.mk false 14 0 "C9").maxDeletes ≤ 0 ∧
    attIdOf c9att = some (JSVal.num 4) ∧
    jsTruthy (JSVal.num 4) = true ∧
    jsTruthy (getActivityIdFromAttachment c9att) = true ∧
    resOk (c9net (deleteAttachmentReq (getActivityIdFromAttachment c9att)
      (JSVal.num 4))).status = true ∧
    processAttachment (Config.mk false 14 0 "C9") c9net (JSVal.num 9) c9att
        (RunSt.mk 0 [] []) =
      StepOut.halt (RunSt.mk 1 [deleteAttachmentReq (JSVal.num 77) (JSVal.num 4)]
        [LogEvent.deletedLine "4" "f.pdf" "9" "77", LogEvent.reachedMax 0,
          LogEvent.doneSummary 1]) ∧
    ((0 : Int) + 1 > 0) := by
  have h := cap_checked_after_increment (Config.mk false 14 0 "C9") c9net (JSVal.num 9) c9att
    (JSVal.num 4) (RunSt.mk 0 [] []) rfl (by decide) rfl rfl rfl rfl
  exact ⟨rfl, by decide, rfl, rfl, rfl, rfl, h.1.trans (by rfl), by decide⟩

/-- C10 witness: a ticket with id 0 and an attachment with an empty-string
id are both skipped exactly as missing-id records are. -/
theorem falsy_identifier_skipped_witness :
    ticketIdOf (JSVal.obj [("id", JSVal.num 0)]) = some (JSVal.num 0) ∧
    attIdOf (JSVal.obj [("attachmentId", JSVal.str "")]) = some (JSVal.str "") ∧
    processTickets (Config.mk true 14 200 "C") nullNet 3
        [JSVal.obj [("id", JSVal.num 0)]] (RunSt.mk 0 [] []) =
      processTickets (Config.mk true 14 200 "C") nullNet 3 [] (RunSt.mk 0 [] []) ∧
    processAttachments (Config.mk true 14 200 "C") nullNet (JSVal.num 9)
        [JSVal.obj [("attachmentId", JSVal.str "")]] (RunSt.mk 0 [] []) =
      processAttachments (Config.mk true 14 200 "C") nullNet (JSVal.num 9) []
        (RunSt.mk 0 [] []) := by
  have h := falsy_identifier_skipped (Config.mk true 14 200 "C") nullNet 3
    (JSVal.obj [("id", JSVal.num 0)]) (JSVal.obj [("attachmentId", JSVal.str "")])
    (JSVal.num 9) [] [] (RunSt.mk 0 [] [])
    (Or.inr (Or.inr (Or.inl rfl)))
    (Or.inr (Or.inr (Or.inr (Or.inl rfl))))
  exact ⟨rfl, rfl, h.1, h.2⟩
